import Mathlib

/-!
Shallow embedding of the WebPGP storage/vault/key-management core
(src/lib/storage.ts, the `addKey` and `getDecryptedPrivateKeyArmored`
functions of the application page component, and the password-retry
branches of the UI components), together with theorems settling the
frozen claims about its specification.

JavaScript strings that matter to the model are represented by the inductive
type `Str`, which distinguishes the three shapes the code dispatches on:
plain text, an armored OpenPGP key block, and an armored PGP MESSAGE
produced by password-based symmetric encryption.  The external OpenPGP
engine is a black box; it is modelled abstractly, with the error-message
strings it throws kept as parameters (an `Engine` value), because
`decryptData` classifies engine failures by substring-matching on those
messages.
-/

namespace WebPGP

/-- What a parsed OpenPGP key object exposes to the storage layer:
`getKeyID().toHex()`, `getUserIDs()` (each packet's `userID` field may be
absent), `getPrimaryUser()?.user?.userID?.userID` (may be absent),
`getCreationTime()`, `isPrivate()`, `isDecrypted()`. -/
structure KeyInfo where
  keyId : String
  userIds : List (Option String)
  primaryUserId : Option String
  creationTime : Nat
  isPrivate : Bool
  isDecrypted : Bool
deriving DecidableEq, Repr

/-- Model of the JavaScript strings handled by the storage layer:
`raw s` is arbitrary text (including garbage), `key k` is an armored key
block that parses to the key object `k`, and `enc p w` is the armored PGP
MESSAGE obtained by symmetrically encrypting the string `p` under the
password `w` (the fresh random session parameters are irrelevant to every
claim and are not modelled). -/
inductive Str
  | raw (s : String)
  | key (k : KeyInfo)
  | enc (p : Str) (w : String)
deriving DecidableEq, Repr

/-- Abstract external engine: the messages of the errors openpgp.js throws
when symmetric decryption fails on the password, and when the armored
input cannot be parsed/decrypted for any other reason.  They are
parameters because the repository does not control them, yet
`decryptData` dispatches on their contents. -/
structure Engine where
  wrongPasswordMsg : String
  malformedMsg : String
deriving DecidableEq, Repr

/-- `leadsWith p l` is true iff the character list `p` starts the list `l`. -/
def leadsWith : List Char → List Char → Bool
  | [], _ => true
  | _ :: _, [] => false
  | p :: ps, c :: cs => p == c && leadsWith ps cs

/-- `hasSub pat l` is true iff `pat` occurs as a contiguous sublist of `l`. -/
def hasSub (pat : List Char) : List Char → Bool
  | [] => pat.isEmpty
  | c :: cs => leadsWith pat (c :: cs) || hasSub pat cs

/-- JavaScript `s.includes(pat)`. -/
def strIncludes (s pat : String) : Bool :=
  hasSub pat.data s.data

/-- The test `error.message.includes('password') ||
error.message.includes('Passphrase incorrect')` from `decryptData`
(src/lib/storage.ts line 116). -/
def containsAuthPattern (msg : String) : Bool :=
  strIncludes msg "password" || strIncludes msg "Passphrase incorrect"

/-- `openpgp.readMessage` followed by `openpgp.decrypt` with a password:
succeeds exactly on a PGP MESSAGE decrypted with its own password,
fails with the engine's wrong-password message on a password mismatch,
and with the engine's malformed-data message on anything that is not a
PGP MESSAGE. -/
def engineDecrypt (E : Engine) : Str → String → Except String Str
  | .enc p w, pw => if pw = w then .ok p else .error E.wrongPasswordMsg
  | .raw _, _ => .error E.malformedMsg
  | .key _, _ => .error E.malformedMsg

/-- Message of the error `decryptData` throws when it recognizes a
password failure (src/lib/storage.ts line 117). -/
def WRONG_PASSWORD_MSG : String := "密码错误或数据已损坏。"

/-- Message of the error `decryptData` throws for any other decryption
failure (src/lib/storage.ts line 119). -/
def CORRUPT_DATA_MSG : String := "数据解密失败。"

/-- `decryptData` (src/lib/storage.ts lines 98-121): run the engine's
readMessage/decrypt; on failure, rethrow the wrong-password error when the
engine's message matches the password pattern, and the corrupt-data error
otherwise. -/
def decryptData (E : Engine) (encryptedArmored : Str) (password : String) :
    Except String Str :=
  match engineDecrypt E encryptedArmored password with
  | .ok s => .ok s
  | .error msg =>
    if containsAuthPattern msg then .error WRONG_PASSWORD_MSG
    else .error CORRUPT_DATA_MSG

/-- `encryptData` (src/lib/storage.ts lines 74-89): password-based
symmetric encryption to an armored PGP MESSAGE. -/
def encryptData (plaintext : Str) (password : String) : Str :=
  .enc plaintext password

/-- The fixed verifier plaintext `VERIFIER_PLAINTEXT`
(src/lib/storage.ts line 8). -/
def VERIFIER_PLAINTEXT : Str := .raw "master_password_correct"

/-- One persisted key record (the `StoredKey` interface of the source):
`keyId` and `data` strings, the `type` tag compared against `'private'`,
and the denormalized display metadata that `saveKeysToStorage` caches. -/
structure StoredKey where
  keyId : String
  type : String
  data : Str
  userIds : List String
  primaryUserId : String
  creationTime : String
deriving DecidableEq, Repr

/-- One element of the parsed stored-keys array: either an object passing
the structural check of src/lib/storage.ts line 155 (`keyId` and `data`
are strings), or anything else (null, wrong field types, ...), which that
check skips. -/
inductive StoredEntry
  | valid (r : StoredKey)
  | malformedEntry
deriving DecidableEq, Repr

/-- What the string stored under `STORAGE_KEY` JSON-parses to: an array of
entries, valid JSON that is not an array, or text that fails to parse as
JSON at all (src/lib/storage.ts lines 138-149 dispatch on exactly these
three shapes). -/
inductive StoredVal
  | arr (entries : List StoredEntry)
  | notArray
  | badJson
deriving DecidableEq, Repr

/-- The two localStorage slots the module uses: the key collection under
`STORAGE_KEY` (its stored string modelled post-JSON-parse, see
`StoredVal`) and the verifier under `MASTER_PASSWORD_VERIFIER_KEY`. -/
structure Storage where
  keys : Option StoredVal
  verifier : Option Str
deriving DecidableEq, Repr

/-- `hasMasterPassword` (src/lib/storage.ts lines 16-18). -/
def hasMasterPassword (st : Storage) : Bool :=
  st.verifier.isSome

/-- `setMasterPassword` (src/lib/storage.ts lines 26-36): encrypt the
fixed verifier plaintext under the given password and store the result,
unconditionally overwriting any slot contents. -/
def setMasterPassword (st : Storage) (password : String) : Storage :=
  { st with verifier := some (encryptData VERIFIER_PLAINTEXT password) }

/-- `verifyMasterPassword` (src/lib/storage.ts lines 44-62): false when no
verifier is stored; otherwise try to decrypt it and compare with the fixed
plaintext, any decryption failure being caught and turned into false. -/
def verifyMasterPassword (E : Engine) (st : Storage) (password : String) :
    Bool :=
  match st.verifier with
  | none => false
  | some v =>
    match decryptData E v password with
    | .ok decrypted => decrypted == VERIFIER_PLAINTEXT
    | .error _ => false

/-- JavaScript `s.slice(-n)`: the last `n` characters (the whole string
when it is shorter than `n`). -/
def sliceLast (s : String) (n : Nat) : String :=
  String.mk (s.data.drop (s.data.length - n))

/-- `openpgp.readKey`: parses any armored key block, public or private. -/
def readKey : Str → Option KeyInfo
  | .key k => some k
  | .raw _ => none
  | .enc _ _ => none

/-- `openpgp.readPrivateKey`: parses an armored key block only when it
carries private material. -/
def readPrivateKey : Str → Option KeyInfo
  | .key k => if k.isPrivate then some k else none
  | .raw _ => none
  | .enc _ _ => none

/-- The in-memory `PGPKey` record built by `loadKeysFromStorage` (the
parsed `keyObject` itself is represented by the `armored` field, which in
this model determines it). -/
structure PGPKey where
  keyId : String
  armored : Str
  userIds : List String
  primaryUserId : String
  isPrivate : Bool
  creationTime : Nat
deriving DecidableEq, Repr

/-- src/lib/storage.ts lines 194-212: build a `PGPKey` from a parsed key
object and the armored data it was parsed from.  Every metadata field is
computed from the key object: the primary user identity with its
`No User ID (...)` fallback, the user-identity list with its per-packet
fallback and its non-empty fallback, the creation time, and
`isPrivate := keyObject.isPrivate()`. -/
def hydrateKey (k : KeyInfo) (armoredKeyData : Str) : PGPKey :=
  let primaryUserId :=
    k.primaryUserId.getD ("No User ID (" ++ sliceLast k.keyId 8 ++ ")")
  let userIds := k.userIds.map (fun u => u.getD "No UserID packet")
  { keyId := k.keyId
    armored := armoredKeyData
    userIds := if userIds.isEmpty then [primaryUserId] else userIds
    primaryUserId := primaryUserId
    isPrivate := k.isPrivate
    creationTime := k.creationTime }

/-- Message of the error thrown by `loadKeysFromStorage` when decrypting a
record fails with a password error (src/lib/storage.ts line 222). -/
def loadKeyErrMsg (keyId : String) : String :=
  "加载密钥 " ++ sliceLast keyId 8 ++ " 时主密码错误或数据损坏。请检查主密码或重置应用。"

/-- One iteration of the loop of `loadKeysFromStorage`
(src/lib/storage.ts lines 153-227): `.error m` models the rethrow that
aborts the whole load, `.ok none` a record that is skipped (structural
check failure, parse failure, or a non-password decryption failure), and
`.ok (some key)` a successfully hydrated record. -/
def loadRecord (E : Engine) (masterPassword : String) :
    StoredEntry → Except String (Option PGPKey)
  | .malformedEntry => .ok none
  | .valid r =>
    if r.type = "private" then
      match decryptData E r.data masterPassword with
      | .error msg =>
        if strIncludes msg "密码错误" then .error (loadKeyErrMsg r.keyId)
        else .ok none
      | .ok armoredKeyData =>
        match readPrivateKey armoredKeyData with
        | none => .ok none
        | some k => .ok (some (hydrateKey k armoredKeyData))
    else
      match readKey r.data with
      | none => .ok none
      | some k => .ok (some (hydrateKey k r.data))

/-- The whole record loop of `loadKeysFromStorage`: an aborting record
makes the whole load fail, skipped records contribute nothing, loaded
records are collected in order. -/
def loadLoop (E : Engine) (masterPassword : String) :
    List StoredEntry → Except String (List PGPKey)
  | [] => .ok []
  | e :: rest =>
    match loadRecord E masterPassword e with
    | .error m => .error m
    | .ok none => loadLoop E masterPassword rest
    | .ok (some k) => (loadLoop E masterPassword rest).map (k :: ·)

/-- `clearAllStoredKeys` (src/lib/storage.ts lines 286-290): removes both
the key collection and the master-password verifier. -/
def clearAllStoredKeys (_st : Storage) : Storage :=
  { keys := none, verifier := none }

/-- `loadKeysFromStorage` (src/lib/storage.ts lines 132-230), returning
its result together with the storage it leaves behind: no stored data
yields an empty list; a stored value that is not a JSON array wipes all
stored data via `clearAllStoredKeys` and yields an empty list; otherwise
the record loop runs. -/
def loadKeysFromStorage (E : Engine) (st : Storage) (masterPassword : String) :
    Except String (List PGPKey) × Storage :=
  match st.keys with
  | none => (.ok [], st)
  | some (.arr entries) => (loadLoop E masterPassword entries, st)
  | some .notArray => (.ok [], clearAllStoredKeys st)
  | some .badJson => (.ok [], clearAllStoredKeys st)

/-- The alert `addKey` shows when rejecting an import over an existing
private record (page component, line 461 of the concatenated
src/components/VerifySignature.tsx). -/
def keyConflictAlert (newKey : PGPKey) : String :=
  "错误：具有相同 KeyID (" ++ sliceLast newKey.keyId 8 ++ ") 的私钥已存在。"

/-- The alert `addKey` shows when upgrading a public record to the
incoming private one (line 468). -/
def upgradeAlert (newKey : PGPKey) : String :=
  "密钥 " ++ sliceLast newKey.keyId 8 ++ " 已从公钥升级为私钥。"

/-- The alert `addKey` shows when the incoming public record duplicates an
existing public one (line 471). -/
def duplicatePublicAlert (newKey : PGPKey) : String :=
  "具有相同 KeyID (" ++ sliceLast newKey.keyId 8 ++ ") 的公钥已存在。"

/-- The alert `addKey` shows after appending a record with a fresh
identifier (line 477). -/
def importedAlert (newKey : PGPKey) : String :=
  "成功导入 " ++ (if newKey.isPrivate then "私钥" else "公钥") ++ ": "
    ++ newKey.primaryUserId ++ " (" ++ sliceLast newKey.keyId 8 ++ ")"

/-- The observable outcome of one `addKey` call: `earlyReturn` models the
branches that alert and `return` before reaching `setKeys`/`saveKeys`
(the stored collection stays untouched), `saved` the branches that set
the state to `updatedKeys` and persist it. -/
inductive AddKeyOutcome
  | earlyReturn (alertMsg : String)
  | saved (updatedKeys : List PGPKey) (alertMsg : String)
deriving DecidableEq, Repr

/-- `addKey` (the application page component, lines 450-483 of the
concatenated src/components/VerifySignature.tsx):
`keys.findIndex(k => k.keyId === newKey.keyId)`; on a hit, reject when
the existing record is private, replace the record at the found index
when the incoming record is private and the existing one public, and
return unchanged when both are public; on a miss, append the new
record.  JavaScript's not-found index `-1` is Lean's
`findIdx = keys.length`. -/
def addKey (keys : List PGPKey) (newKey : PGPKey) : AddKeyOutcome :=
  let existingKeyIndex := keys.findIdx (fun k => k.keyId == newKey.keyId)
  if h : existingKeyIndex < keys.length then
    let existingKey := keys.get ⟨existingKeyIndex, h⟩
    if existingKey.isPrivate then .earlyReturn (keyConflictAlert newKey)
    else if newKey.isPrivate then
      .saved (keys.set existingKeyIndex newKey) (upgradeAlert newKey)
    else .earlyReturn (duplicatePublicAlert newKey)
  else
    .saved (keys ++ [newKey]) (importedAlert newKey)

/-- `getDecryptedPrivateKeyArmored` (the application page component,
lines 506-542 of the concatenated src/components/VerifySignature.tsx):
look up the stored private record with the given id — `null` when there
is none, and also when the record's parsed key object is missing or not
private; when the key object is already decrypted, return its armored
form directly (the passphrase argument is never consulted on that path);
otherwise a missing or empty passphrase raises the needs-password error,
and `openpgp.decryptKey` — abstracted by `decryptKeyOracle`, its outcome
depending on key material outside this module — either yields the
unlocked key, whose armored form is returned, or fails, the failure
being reclassified by the message-pattern test of lines 532-535.  A
record's parsed `keyObject` is represented by what its `armored` text
parses to. -/
def getDecryptedPrivateKeyArmored
    (decryptKeyOracle : KeyInfo → String → Except String KeyInfo)
    (keys : List PGPKey) (keyId : String) (passphrase : Option String) :
    Except String (Option Str) :=
  match keys.find? (fun k => k.keyId == keyId && k.isPrivate) with
  | none => .ok none
  | some key =>
    match readKey key.armored with
    | none => .ok none
    | some kobj =>
      if kobj.isPrivate = false then .ok none
      else if kobj.isDecrypted = false then
        if passphrase.getD "" = "" then
          .error ("需要密钥 " ++ sliceLast keyId 8 ++ " 的密码。")
        else
          match decryptKeyOracle kobj (passphrase.getD "") with
          | .ok unlocked => .ok (some (.key unlocked))
          | .error msg =>
            if strIncludes msg "password" || strIncludes msg "Passphrase" then
              .error ("密钥 " ++ sliceLast keyId 8 ++ " 的密码错误。")
            else .error ("解密密钥 " ++ sliceLast keyId 8 ++ " 失败。")
      else .ok (some (.key kobj))

/-- The state of the SignMessage component that the passphrase-retry
workflow touches (src/components/SignMessage.tsx); fields the retry
branches never read or write are omitted. -/
structure SignState where
  showKeyPasswordModal : Bool
  dataToSign : Option String
  keyIdRequiringPassword : Option String
  isLoading : Bool
  error : Option String
deriving DecidableEq, Repr

/-- `SignMessage.handleKeyPasswordSubmit` (src/components/SignMessage.tsx
lines 129-181).  The body of its try block (unlocking the key and
signing) is abstracted by `attemptError` (`none` on success, the shown
message on failure); the guard branches and the finally block are modelled
exactly.  Note that the two guard branches return without touching
`dataToSign` or `keyIdRequiringPassword`. -/
def signHandleKeyPasswordSubmit (privateKeys : List PGPKey)
    (selectedPrivateKeyId : String) (attemptError : Option String)
    (s : SignState) : SignState :=
  if s.dataToSign.isNone || selectedPrivateKeyId = "" then
    { s with error := some "内部错误：无法使用密码进行签名。"
             showKeyPasswordModal := false }
  else if (privateKeys.find? (fun k => k.keyId == selectedPrivateKeyId)).isNone
  then
    { s with error := some "内部错误：找不到选定的私钥。"
             showKeyPasswordModal := false }
  else
    { s with showKeyPasswordModal := false
             error := attemptError
             dataToSign := none
             keyIdRequiringPassword := none
             isLoading := false }

/-- The `onClose` handler of the SignMessage password modal
(src/components/SignMessage.tsx lines 320-327): cancel clears the staged
context. -/
def signModalClose (s : SignState) : SignState :=
  { s with showKeyPasswordModal := false
           error := some "签名已取消，因为未提供所需的密钥密码。"
           dataToSign := none
           keyIdRequiringPassword := none
           isLoading := false }

/-- What the decrypt retry path reads from a parsed `openpgp.Message`:
`getEncryptionKeyIDs().map(kid => kid.toHex())`. -/
structure PgpMessage where
  encryptionKeyIds : List String
deriving DecidableEq, Repr

/-- The state of the DecryptMessage component that the passphrase-retry
workflow touches (src/components/DecryptMessage.tsx); fields the retry
branches never read or write are omitted. -/
structure DecState where
  showKeyPasswordModal : Bool
  messageToDecrypt : Option PgpMessage
  keyIdRequiringPassword : Option String
  isLoading : Bool
  error : Option String
deriving DecidableEq, Repr

/-- `DecryptMessage.handleKeyPasswordSubmit`
(src/components/DecryptMessage.tsx lines 501-575).  The unlock-and-retry
loop over the candidate keys (lines 528-567) is abstracted by
`runRetryLoop`, since it only manipulates output/error state before the
unconditional clears of lines 570-572; the guard branches, the
`potentialKeys` filter, the empty-filter early return and the final
clears are modelled exactly.  Note that the empty-filter branch (source
lines 521-525) returns without clearing `messageToDecrypt` or
`keyIdRequiringPassword`. -/
def decHandleKeyPasswordSubmit (privateKeys : List PGPKey)
    (runRetryLoop : List PGPKey → DecState → DecState)
    (s : DecState) : DecState :=
  match s.messageToDecrypt with
  | none =>
    { s with error := some "内部错误：无法使用密码重试解密。"
             showKeyPasswordModal := false }
  | some m =>
    if s.keyIdRequiringPassword.isNone then
      { s with error := some "内部错误：无法使用密码重试解密。"
               showKeyPasswordModal := false }
    else
      let s1 : DecState :=
        { s with showKeyPasswordModal := false, isLoading := true,
                 error := none }
      let potentialKeys := privateKeys.filter
        (fun pk => m.encryptionKeyIds.contains pk.keyId)
      if potentialKeys.isEmpty then
        { s1 with error := some "内部错误：找不到与消息匹配的需要密码的私钥。"
                  isLoading := false }
      else
        let s2 := runRetryLoop potentialKeys s1
        { s2 with messageToDecrypt := none
                  keyIdRequiringPassword := none
                  isLoading := false }

/-- The `onClose` handler of the DecryptMessage password modal
(src/components/DecryptMessage.tsx lines 663-670): cancel clears the
staged context. -/
def decModalClose (s : DecState) : DecState :=
  { s with showKeyPasswordModal := false
           error := some "解密已取消，因为未提供所需的密钥密码。"
           messageToDecrypt := none
           keyIdRequiringPassword := none
           isLoading := false }

/-! ## Sample values for witnesses and counterexamples -/

/-- A concrete engine whose wrong-password failure message matches the
pattern `decryptData` tests for and whose malformed-data message does
not. -/
def sampleEngine : Engine :=
  { wrongPasswordMsg := "incorrect password"
    malformedMsg := "Misformed armored text" }

/-- A concrete parsed private key. -/
def sampleKeyInfo : KeyInfo :=
  { keyId := "deadbeef01"
    userIds := [some "Alice <alice@example.com>"]
    primaryUserId := some "Alice <alice@example.com>"
    creationTime := 100
    isPrivate := true
    isDecrypted := true }

/-- A persisted private record wrapping `sampleKeyInfo` under the master
password `"W"`. -/
def samplePrivateRecord : StoredKey :=
  { keyId := "deadbeef01"
    type := "private"
    data := .enc (.key sampleKeyInfo) "W"
    userIds := ["Alice <alice@example.com>"]
    primaryUserId := "Alice <alice@example.com>"
    creationTime := "2024-01-01T00:00:00.000Z" }

/-- A persisted public record whose data fails to parse as a key. -/
def sampleCorruptRecord : StoredKey :=
  { keyId := "0badc0de"
    type := "public"
    data := .raw "not a key"
    userIds := []
    primaryUserId := ""
    creationTime := "" }

/-- A storage holding the corrupted public record followed by the private
record wrapped under `"W"`, with a verifier created under `"W"`. -/
def sampleStore : Storage :=
  { keys := some (.arr [.valid sampleCorruptRecord, .valid samplePrivateRecord])
    verifier := some (.enc VERIFIER_PLAINTEXT "W") }

/-- A parsed private key whose persisted record declares it public. -/
def mislabeledKeyInfo : KeyInfo :=
  { keyId := "feedface02"
    userIds := [some "Mallory <m@example.com>"]
    primaryUserId := some "Mallory <m@example.com>"
    creationTime := 7
    isPrivate := true
    isDecrypted := true }

/-- A persisted record whose `type` flag says `public` while its data is a
private key block. -/
def mislabeledRecord : StoredKey :=
  { keyId := "feedface02"
    type := "public"
    data := .key mislabeledKeyInfo
    userIds := ["cached user id"]
    primaryUserId := "cached primary"
    creationTime := "cached time" }

/-- A storage holding only the mislabeled record. -/
def mislabeledStore : Storage :=
  { keys := some (.arr [.valid mislabeledRecord]), verifier := none }

/-- A storage that already holds a verifier (created under `"pw1"`). -/
def initializedStore : Storage :=
  { keys := none, verifier := some (.enc VERIFIER_PLAINTEXT "pw1") }

/-- A public key record with identifier `"X"`. -/
def publicRecX : PGPKey :=
  { keyId := "X", armored := .key ⟨"X", [some "u"], some "u", 1, false, false⟩
    userIds := ["u"], primaryUserId := "u", isPrivate := false
    creationTime := 1 }

/-- A private key record with the same identifier `"X"`. -/
def privateRecX : PGPKey :=
  { keyId := "X", armored := .key ⟨"X", [some "u"], some "u", 1, true, false⟩
    userIds := ["u"], primaryUserId := "u", isPrivate := true
    creationTime := 1 }

/-- A second private key record with identifier `"X"`. -/
def privateRecX2 : PGPKey :=
  { keyId := "X", armored := .key ⟨"X", [some "u2"], some "u2", 2, true, false⟩
    userIds := ["u2"], primaryUserId := "u2", isPrivate := true
    creationTime := 2 }

/-- The stored private key of the decrypt-retry scenario: its identifier
is a primary-key id that does not appear among the message's encryption
(sub)key ids. -/
def retryPrivateKey : PGPKey :=
  { keyId := "primary0001", armored := .key ⟨"primary0001", [], none, 3, true, false⟩
    userIds := ["Bob"], primaryUserId := "Bob", isPrivate := true
    creationTime := 3 }

/-- A parsed message whose encryption key ids name only a subkey. -/
def retryMessage : PgpMessage :=
  { encryptionKeyIds := ["subkey9999"] }

/-- The component state right after the password modal was opened for
`retryMessage`. -/
def retryDecState : DecState :=
  { showKeyPasswordModal := true
    messageToDecrypt := some retryMessage
    keyIdRequiringPassword := some "subkey9999"
    isLoading := false
    error := none }

/-- An oracle for `openpgp.decryptKey` that always fails; the
already-decrypted path of `getDecryptedPrivateKeyArmored` must never
reach it. -/
def failingDecryptKeyOracle : KeyInfo → String → Except String KeyInfo :=
  fun _ _ => .error "Error decrypting private key: incorrect passphrase"

/-- A parsed private key that is already decrypted. -/
def unlockedKeyInfo : KeyInfo :=
  { keyId := "unlocked0001"
    userIds := [some "Carol <carol@example.com>"]
    primaryUserId := some "Carol <carol@example.com>"
    creationTime := 9
    isPrivate := true
    isDecrypted := true }

/-- The in-memory record carrying `unlockedKeyInfo`. -/
def unlockedPrivateKey : PGPKey :=
  { keyId := "unlocked0001"
    armored := .key unlockedKeyInfo
    userIds := ["Carol <carol@example.com>"]
    primaryUserId := "Carol <carol@example.com>"
    isPrivate := true
    creationTime := 9 }

/-! ## Helper lemmas -/

theorem hasSub_append_left (pat l : List Char) (x : List Char)
    (h : hasSub pat l = true) : hasSub pat (x ++ l) = true := by
  induction x with
  | nil => simpa using h
  | cons c cs ih =>
    simp only [List.cons_append, hasSub, Bool.or_eq_true]
    exact Or.inr ih

theorem strIncludes_loadKeyErrMsg (keyId : String) :
    strIncludes (loadKeyErrMsg keyId) "密码错误" = true := by
  unfold strIncludes loadKeyErrMsg
  rw [String.data_append, String.data_append, List.append_assoc]
  apply hasSub_append_left
  apply hasSub_append_left
  decide

theorem loadRecord_error_shape (E : Engine) (mp : String) (e : StoredEntry)
    (m : String) (h : loadRecord E mp e = .error m) :
    ∃ kid, m = loadKeyErrMsg kid := by
  cases e with
  | malformedEntry => exact Except.noConfusion h
  | valid r =>
    simp only [loadRecord] at h
    split at h
    · cases hd : decryptData E r.data mp with
      | ok d =>
        cases hr : readPrivateKey d <;> simp only [hd, hr] at h <;>
          exact Except.noConfusion h
      | error msg =>
        simp only [hd] at h
        split at h
        · exact ⟨r.keyId, (Except.error.inj h).symm⟩
        · exact Except.noConfusion h
    · cases hr : readKey r.data <;> simp only [hr] at h <;>
        exact Except.noConfusion h

theorem loadLoop_error_of_mem (E : Engine) (mp : String)
    (entries : List StoredEntry) (e : StoredEntry) (m : String)
    (hmem : e ∈ entries) (herr : loadRecord E mp e = .error m) :
    ∃ m', loadLoop E mp entries = .error m' ∧
      ∃ e' ∈ entries, loadRecord E mp e' = .error m' := by
  induction entries with
  | nil => cases hmem
  | cons a rest ih =>
    cases ha : loadRecord E mp a with
    | error m0 =>
      exact ⟨m0, by simp [loadLoop, ha], a, List.mem_cons_self a rest, ha⟩
    | ok o =>
      have hrest : e ∈ rest := by
        rcases List.mem_cons.mp hmem with h | h
        · exact absurd herr (by rw [h, ha]; simp)
        · exact h
      obtain ⟨m', hloop, e', he'mem, he'⟩ := ih hrest
      refine ⟨m', ?_, e', List.mem_cons_of_mem a he'mem, he'⟩
      cases o with
      | none => simpa [loadLoop, ha] using hloop
      | some k => simp [loadLoop, ha, hloop, Except.map]

theorem loadLoop_skip (E : Engine) (mp : String) (e : StoredEntry)
    (hskip : loadRecord E mp e = .ok none) (pre post : List StoredEntry) :
    loadLoop E mp (pre ++ e :: post) = loadLoop E mp (pre ++ post) := by
  induction pre with
  | nil => simp [loadLoop, hskip]
  | cons a rest ih =>
    simp only [List.cons_append, loadLoop]
    cases loadRecord E mp a with
    | error m => rfl
    | ok o =>
      cases o with
      | none => exact ih
      | some k => exact congrArg (Except.map (fun x => k :: x)) ih

theorem set_of_get?_eq {α : Type} (l : List α) (i : Nat) (a : α)
    (h : l.get? i = some a) : l.set i a = l := by
  induction l generalizing i with
  | nil => exact Option.noConfusion h
  | cons b t ih =>
    cases i with
    | zero =>
      obtain rfl : b = a := by simpa using h
      simp
    | succ j =>
      simp only [List.set_cons_succ]
      rw [ih j (by simpa using h)]

theorem findIdx_keyId_get (keys : List PGPKey) (newKey : PGPKey)
    (huniq : (keys.map PGPKey.keyId).Nodup) (e : PGPKey) (hmem : e ∈ keys)
    (hid : e.keyId = newKey.keyId) :
    ∃ h : keys.findIdx (fun k => k.keyId == newKey.keyId) < keys.length,
      keys.get ⟨keys.findIdx (fun k => k.keyId == newKey.keyId), h⟩ = e := by
  have hlt : keys.findIdx (fun k => k.keyId == newKey.keyId) < keys.length :=
    List.findIdx_lt_length_of_exists ⟨e, hmem, by simp [hid]⟩
  refine ⟨hlt, ?_⟩
  have hp : ((keys.get ⟨keys.findIdx (fun k => k.keyId == newKey.keyId),
      hlt⟩).keyId == newKey.keyId) = true :=
    @List.findIdx_get _ (fun k => k.keyId == newKey.keyId) keys hlt
  have hkid : (keys.get ⟨keys.findIdx (fun k => k.keyId == newKey.keyId),
      hlt⟩).keyId = e.keyId := by
    rw [hid]
    exact beq_iff_eq.mp hp
  exact List.inj_on_of_nodup_map huniq (List.get_mem _ _ _) hmem hkid

/-! ## Claim theorems -/

/-- C1: for every persisted key collection containing at least one private
record wrapped under master password `W`, and every password `W2 ≠ W`,
`loadKeysFromStorage` with `W2` fails with a wrong-password error (a
thrown message containing the wrong-password marker) and yields no record
list at all — provided the engine reports its passphrase failure with a
message matching the pattern `decryptData` tests for. -/
theorem loadKeysFromStorage_wrongPassword_aborts
    (E : Engine) (hA : containsAuthPattern E.wrongPasswordMsg = true)
    (st : Storage) (entries : List StoredEntry)
    (hkeys : st.keys = some (.arr entries))
    (r : StoredKey) (hmem : StoredEntry.valid r ∈ entries)
    (htype : r.type = "private")
    (p : Str) (W W2 : String) (hdata : r.data = .enc p W) (hne : W2 ≠ W) :
    ∃ m, (loadKeysFromStorage E st W2).fst = .error m ∧
      strIncludes m "密码错误" = true := by
  have hd : decryptData E r.data W2 = .error WRONG_PASSWORD_MSG := by
    rw [hdata]
    simp only [decryptData, engineDecrypt, if_neg hne, hA, if_true]
  have hrec : loadRecord E W2 (.valid r) = .error (loadKeyErrMsg r.keyId) := by
    simp only [loadRecord, htype, if_pos, hd]
    rw [if_pos (by decide : strIncludes WRONG_PASSWORD_MSG "密码错误" = true)]
  obtain ⟨m', hloop, e', _, he'⟩ :=
    loadLoop_error_of_mem E W2 entries _ _ hmem hrec
  obtain ⟨kid, hkid⟩ := loadRecord_error_shape E W2 e' m' he'
  refine ⟨m', ?_, hkid ▸ strIncludes_loadKeyErrMsg kid⟩
  simp [loadKeysFromStorage, hkeys, hloop]

/-- C1 witness: the concrete store with a corrupted public record and a
private record wrapped under `"W"`, loaded with `"X"`. -/
theorem loadKeysFromStorage_wrongPassword_aborts_witness :
    ∃ m, (loadKeysFromStorage sampleEngine sampleStore "X").fst = .error m ∧
      strIncludes m "密码错误" = true :=
  loadKeysFromStorage_wrongPassword_aborts sampleEngine (by decide)
    sampleStore [.valid sampleCorruptRecord, .valid samplePrivateRecord] rfl
    samplePrivateRecord (by decide) rfl (.key sampleKeyInfo) "W" "X" rfl
    (by decide)

/-- C3: after `setMasterPassword W`, `verifyMasterPassword W` is true and
`verifyMasterPassword W2` is false for `W2 ≠ W`; moreover, on any storage
holding a verifier, `verifyMasterPassword` is true exactly when
`decryptData` on the stored verifier succeeds with the fixed marker
plaintext — and any decryption failure yields `false` (the function is
total into `Bool`, never propagating an exception). -/
theorem verifyMasterPassword_correct
    (E : Engine) (st : Storage) (W W2 : String) (hne : W2 ≠ W) :
    verifyMasterPassword E (setMasterPassword st W) W = true ∧
    verifyMasterPassword E (setMasterPassword st W) W2 = false ∧
    (∀ pw v, st.verifier = some v →
      (verifyMasterPassword E st pw = true ↔
        decryptData E v pw = .ok VERIFIER_PLAINTEXT)) := by
  refine ⟨?_, ?_, ?_⟩
  · simp [verifyMasterPassword, setMasterPassword, encryptData, decryptData,
      engineDecrypt]
  · simp only [verifyMasterPassword, setMasterPassword, encryptData,
      decryptData, engineDecrypt, if_neg hne]
    split
    · rename_i s heq
      split at heq <;> exact Except.noConfusion heq
    · rfl
  · intro pw v hv
    simp only [verifyMasterPassword, hv]
    cases hd : decryptData E v pw with
    | ok d => simp [beq_iff_eq]
    | error m => simp

/-- C3 witness: concrete storage, `W = "W"`, `W2 = "X"`. -/
theorem verifyMasterPassword_correct_witness :
    verifyMasterPassword sampleEngine
      (setMasterPassword ⟨none, none⟩ "W") "W" = true ∧
    verifyMasterPassword sampleEngine
      (setMasterPassword ⟨none, none⟩ "W") "X" = false := by
  have h := verifyMasterPassword_correct sampleEngine ⟨none, none⟩ "W" "X"
    (by decide)
  exact ⟨h.1, h.2.1⟩

/-- C4: `decryptData` fails with the wrong-password error exactly when the
engine reports an authentication/passphrase failure (which in the model
happens exactly on a PGP MESSAGE decrypted with the wrong password), and
with the distinct corrupt-data error exactly on any other parse failure
(input that is not a PGP MESSAGE) — provided the engine's
passphrase-failure message matches the pattern the code tests for and its
other failure messages do not. -/
theorem decryptData_error_classification
    (E : Engine) (hA : containsAuthPattern E.wrongPasswordMsg = true)
    (hM : containsAuthPattern E.malformedMsg = false)
    (blob : Str) (pw : String) :
    (decryptData E blob pw = .error WRONG_PASSWORD_MSG ↔
      ∃ p w, blob = .enc p w ∧ pw ≠ w) ∧
    (decryptData E blob pw = .error CORRUPT_DATA_MSG ↔
      ∀ p w, blob ≠ .enc p w) ∧
    WRONG_PASSWORD_MSG ≠ CORRUPT_DATA_MSG := by
  refine ⟨?_, ?_, by decide⟩
  · cases blob with
    | raw s =>
      simp only [decryptData, engineDecrypt, hM, if_false]
      constructor
      · intro h
        exact absurd (Except.error.inj h)
          (by decide : ¬ CORRUPT_DATA_MSG = WRONG_PASSWORD_MSG)
      · rintro ⟨p, w, h, -⟩
        exact Str.noConfusion h
    | key k =>
      simp only [decryptData, engineDecrypt, hM, if_false]
      constructor
      · intro h
        exact absurd (Except.error.inj h)
          (by decide : ¬ CORRUPT_DATA_MSG = WRONG_PASSWORD_MSG)
      · rintro ⟨p, w, h, -⟩
        exact Str.noConfusion h
    | enc p w =>
      by_cases hpw : pw = w
      · simp only [decryptData, engineDecrypt, if_pos hpw]
        constructor
        · intro h
          exact Except.noConfusion h
        · rintro ⟨p', w', h, hne⟩
          obtain ⟨-, rfl⟩ : p = p' ∧ w = w' := by
            injection h with h1 h2
            exact ⟨h1, h2⟩
          exact absurd hpw hne
      · simp only [decryptData, engineDecrypt, if_neg hpw, hA, if_true]
        exact ⟨fun _ => ⟨p, w, rfl, hpw⟩, fun _ => trivial⟩
  · cases blob with
    | raw s =>
      simp only [decryptData, engineDecrypt, hM, if_false]
      exact ⟨fun _ p w h => Str.noConfusion h, fun _ => rfl⟩
    | key k =>
      simp only [decryptData, engineDecrypt, hM, if_false]
      exact ⟨fun _ p w h => Str.noConfusion h, fun _ => rfl⟩
    | enc p w =>
      by_cases hpw : pw = w
      · simp only [decryptData, engineDecrypt, if_pos hpw]
        exact ⟨fun h => Except.noConfusion h, fun h => absurd rfl (h p w)⟩
      · simp only [decryptData, engineDecrypt, if_neg hpw, hA, if_true]
        constructor
        · intro h
          exact absurd (Except.error.inj h)
            (by decide : ¬ WRONG_PASSWORD_MSG = CORRUPT_DATA_MSG)
        · intro h
          exact absurd rfl (h p w)

/-- C4 witness: the sample engine on a PGP MESSAGE decrypted with the
wrong password. -/
theorem decryptData_error_classification_witness :
    containsAuthPattern sampleEngine.wrongPasswordMsg = true ∧
    containsAuthPattern sampleEngine.malformedMsg = false ∧
    ((decryptData sampleEngine (.enc (.raw "secret") "W") "X"
        = .error WRONG_PASSWORD_MSG ↔
      ∃ p w, Str.enc (.raw "secret") "W" = .enc p w ∧ "X" ≠ w) ∧
    (decryptData sampleEngine (.enc (.raw "secret") "W") "X"
        = .error CORRUPT_DATA_MSG ↔
      ∀ p w, Str.enc (.raw "secret") "W" ≠ .enc p w) ∧
    WRONG_PASSWORD_MSG ≠ CORRUPT_DATA_MSG) :=
  ⟨by decide, by decide,
    decryptData_error_classification sampleEngine (by decide) (by decide)
      (.enc (.raw "secret") "W") "X"⟩

/-- C9: when the stored key collection is unreadable (not valid JSON, or
valid JSON that is not an array), `loadKeysFromStorage` wipes both the
key collection and the master-password verifier via `clearAllStoredKeys`
and returns an empty list rather than an error. -/
theorem loadKeysFromStorage_unreadable_clears_all
    (E : Engine) (st : Storage) (mp : String)
    (h : st.keys = some .badJson ∨ st.keys = some .notArray) :
    loadKeysFromStorage E st mp = (.ok [], clearAllStoredKeys st) ∧
    (clearAllStoredKeys st).keys = none ∧
    (clearAllStoredKeys st).verifier = none := by
  rcases h with h | h <;>
    simp [loadKeysFromStorage, h, clearAllStoredKeys]

/-- C9 witness: a storage with unparseable key data and a present
verifier. -/
theorem loadKeysFromStorage_unreadable_clears_all_witness :
    loadKeysFromStorage sampleEngine
        ⟨some .badJson, some (.raw "verifier")⟩ "pw"
      = (.ok [], clearAllStoredKeys ⟨some .badJson, some (.raw "verifier")⟩) ∧
    (clearAllStoredKeys ⟨some .badJson, some (.raw "verifier")⟩).keys = none ∧
    (clearAllStoredKeys ⟨some .badJson, some (.raw "verifier")⟩).verifier
      = none :=
  loadKeysFromStorage_unreadable_clears_all sampleEngine
    ⟨some .badJson, some (.raw "verifier")⟩ "pw" (Or.inl rfl)

/-- C2: the merge rule of the real `addKey`: importing a record whose
identifier matches an existing private record is rejected — the conflict
alert is shown and the function returns before any `setKeys`/`saveKeys`,
so the stored collection is unchanged, whatever the incoming record is;
importing a private record over an existing public one replaces exactly
that record, at the index where it sits, and saves; importing a public
record over an existing public one is an alerting no-op; and every saved
collection still has at most one record per identifier. -/
theorem addKey_merge_rule (keys : List PGPKey) (newKey : PGPKey)
    (huniq : (keys.map PGPKey.keyId).Nodup) :
    (∀ e ∈ keys, e.keyId = newKey.keyId → e.isPrivate = true →
      addKey keys newKey = .earlyReturn (keyConflictAlert newKey)) ∧
    (∀ e ∈ keys, e.keyId = newKey.keyId → e.isPrivate = false →
      newKey.isPrivate = true →
      keys.get? (keys.findIdx (fun k => k.keyId == newKey.keyId))
          = some e ∧
      addKey keys newKey = .saved
        (keys.set (keys.findIdx (fun k => k.keyId == newKey.keyId)) newKey)
        (upgradeAlert newKey)) ∧
    (∀ e ∈ keys, e.keyId = newKey.keyId → e.isPrivate = false →
      newKey.isPrivate = false →
      addKey keys newKey = .earlyReturn (duplicatePublicAlert newKey)) ∧
    (∀ keys' msg, addKey keys newKey = .saved keys' msg →
      (keys'.map PGPKey.keyId).Nodup) := by
  refine ⟨?_, ?_, ?_, ?_⟩
  · intro e hmem hid hpriv
    obtain ⟨hlt, hget⟩ := findIdx_keyId_get keys newKey huniq e hmem hid
    simp only [addKey, dif_pos hlt, hget, hpriv, if_true]
  · intro e hmem hid hpub hnew
    obtain ⟨hlt, hget⟩ := findIdx_keyId_get keys newKey huniq e hmem hid
    refine ⟨by rw [List.get?_eq_get hlt, hget], ?_⟩
    simp only [addKey, dif_pos hlt, hget, hpub, hnew, if_true,
      Bool.false_eq_true, if_false]
  · intro e hmem hid hpub hnew
    obtain ⟨hlt, hget⟩ := findIdx_keyId_get keys newKey huniq e hmem hid
    simp only [addKey, dif_pos hlt, hget, hpub, hnew,
      Bool.false_eq_true, if_false]
  · intro keys' msg hok
    unfold addKey at hok
    by_cases hlt : keys.findIdx (fun k => k.keyId == newKey.keyId)
        < keys.length
    · rw [dif_pos hlt] at hok
      by_cases hpriv : (keys.get ⟨keys.findIdx
          (fun k => k.keyId == newKey.keyId), hlt⟩).isPrivate
      · rw [if_pos hpriv] at hok
        exact AddKeyOutcome.noConfusion hok
      · rw [if_neg hpriv] at hok
        by_cases hnew : newKey.isPrivate
        · rw [if_pos hnew] at hok
          obtain ⟨rfl, -⟩ : keys.set (keys.findIdx
              (fun k => k.keyId == newKey.keyId)) newKey = keys' ∧
              upgradeAlert newKey = msg := by
            injection hok with h1 h2
            exact ⟨h1, h2⟩
          rw [List.map_set]
          have hp : ((keys.get ⟨keys.findIdx
              (fun k => k.keyId == newKey.keyId), hlt⟩).keyId
                == newKey.keyId) = true :=
            @List.findIdx_get _ (fun k => k.keyId == newKey.keyId) keys hlt
          have hidx : (keys.map PGPKey.keyId).get?
              (keys.findIdx (fun k => k.keyId == newKey.keyId))
                = some newKey.keyId := by
            rw [List.get?_map, List.get?_eq_get hlt]
            exact congrArg some (beq_iff_eq.mp hp)
          rw [set_of_get?_eq _ _ _ hidx]
          exact huniq
        · rw [if_neg hnew] at hok
          exact AddKeyOutcome.noConfusion hok
    · rw [dif_neg hlt] at hok
      obtain ⟨rfl, -⟩ : keys ++ [newKey] = keys' ∧
          importedAlert newKey = msg := by
        injection hok with h1 h2
        exact ⟨h1, h2⟩
      rw [List.map_append]
      refine List.Nodup.append huniq (List.nodup_singleton _) ?_
      intro x hx hx'
      obtain ⟨r, hr, hrid⟩ := List.mem_map.mp hx
      obtain rfl : x = newKey.keyId := by simpa using hx'
      exact hlt (List.findIdx_lt_length_of_exists ⟨r, hr, by simp [hrid]⟩)

/-- C2 witness: importing a private record over a public one with the same
identifier upgrades it in place and saves; importing a second private
record with that identifier is then rejected with the conflict alert. -/
theorem addKey_merge_rule_witness :
    addKey [publicRecX] privateRecX
      = .saved [privateRecX] (upgradeAlert privateRecX) ∧
    addKey [privateRecX] privateRecX2
      = .earlyReturn (keyConflictAlert privateRecX2) := by
  constructor
  · have h := ((addKey_merge_rule [publicRecX] privateRecX
      (by decide)).2.1 publicRecX (by simp) rfl rfl rfl).2
    exact h
  · exact (addKey_merge_rule [privateRecX] privateRecX2
      (by decide)).1 privateRecX (by simp) rfl rfl

/-- C5 counterexample: a persisted record whose `kind` flag says public
but whose data is a private key block is hydrated with
`isPrivate = true`, i.e. the kind is recomputed from the parsed key
object, not taken from the persisted flag as the claim states. -/
theorem loadKeysFromStorage_kind_recomputed_cex :
    mislabeledRecord.type = "public" ∧
    (loadKeysFromStorage sampleEngine mislabeledStore "mp").fst
      = .ok [hydrateKey mislabeledKeyInfo (.key mislabeledKeyInfo)] ∧
    (hydrateKey mislabeledKeyInfo (.key mislabeledKeyInfo)).isPrivate
      = true := by
  exact ⟨rfl, rfl, rfl⟩

/-- C5 (amended): for every record `loadKeysFromStorage` decrypts and
parses successfully, every field of the hydrated record — including
`isPrivate`, which is `keyObject.isPrivate()` — is computed from the
parsed key object; the persisted `kind` flag only selects the
decryption/parsing path (so for records persisted as private, whose data
must parse via `readPrivateKey`, the recomputed value necessarily agrees);
and the cached denormalized metadata fields of the persisted record never
influence the result. -/
theorem loadRecord_metadata_from_parsed_key
    (E : Engine) (mp : String) (r : StoredKey) (k : KeyInfo) :
    (r.type ≠ "private" → readKey r.data = some k →
      loadRecord E mp (.valid r) = .ok (some (hydrateKey k r.data)) ∧
      (hydrateKey k r.data).isPrivate = k.isPrivate ∧
      (hydrateKey k r.data).creationTime = k.creationTime ∧
      (hydrateKey k r.data).keyId = k.keyId) ∧
    (∀ d, r.type = "private" → decryptData E r.data mp = .ok d →
      readPrivateKey d = some k →
      loadRecord E mp (.valid r) = .ok (some (hydrateKey k d)) ∧
      k.isPrivate = true) ∧
    (∀ r' : StoredKey, r'.keyId = r.keyId → r'.type = r.type →
      r'.data = r.data →
      loadRecord E mp (.valid r') = loadRecord E mp (.valid r)) := by
  refine ⟨?_, ?_, ?_⟩
  · intro hty hread
    refine ⟨?_, rfl, rfl, rfl⟩
    simp only [loadRecord, if_neg hty, hread]
  · intro d hty hdec hread
    have hk : k.isPrivate = true := by
      cases hd : d with
      | key k' =>
        rw [hd] at hread
        simp only [readPrivateKey] at hread
        split at hread
        · exact (Option.some.inj hread) ▸ (by assumption)
        · exact Option.noConfusion hread
      | raw s => rw [hd] at hread; exact Option.noConfusion hread
      | enc p w => rw [hd] at hread; exact Option.noConfusion hread
    refine ⟨?_, hk⟩
    simp only [loadRecord, if_pos hty, hdec, hread]
  · intro r' hid hty hdata
    simp only [loadRecord, hid, hty, hdata]

/-- C5 amended-claim witness: the mislabeled record of the counterexample
hydrates through the public path with all metadata from the parsed key. -/
theorem loadRecord_metadata_from_parsed_key_witness :
    loadRecord sampleEngine "mp" (.valid mislabeledRecord)
      = .ok (some (hydrateKey mislabeledKeyInfo (.key mislabeledKeyInfo))) ∧
    (hydrateKey mislabeledKeyInfo (.key mislabeledKeyInfo)).isPrivate
      = mislabeledKeyInfo.isPrivate := by
  have h := (loadRecord_metadata_from_parsed_key sampleEngine "mp"
    mislabeledRecord mislabeledKeyInfo).1 (by decide) rfl
  exact ⟨h.1, h.2.1⟩

/-- C6: evaluation of the decrypt component's password-submit handler at
the failing input — the staged message's encryption key ids match no
stored private key's identifier (e.g. a message encrypted to a subkey).
The handler resolves the invocation (modal closed, error surfaced,
loading off) yet retains both the staged parsed message and the key-id
hint, contradicting the claim that every resolution path clears the
staged context. -/
theorem decRetrySubmit_unmatchedKey_retains_context :
    (decHandleKeyPasswordSubmit [retryPrivateKey] (fun _ s => s)
        retryDecState).messageToDecrypt = some retryMessage ∧
    (decHandleKeyPasswordSubmit [retryPrivateKey] (fun _ s => s)
        retryDecState).keyIdRequiringPassword = some "subkey9999" ∧
    (decHandleKeyPasswordSubmit [retryPrivateKey] (fun _ s => s)
        retryDecState).showKeyPasswordModal = false ∧
    (decHandleKeyPasswordSubmit [retryPrivateKey] (fun _ s => s)
        retryDecState).isLoading = false ∧
    (decHandleKeyPasswordSubmit [retryPrivateKey] (fun _ s => s)
        retryDecState).error
      = some "内部错误：找不到与消息匹配的需要密码的私钥。" := by
  exact ⟨rfl, rfl, rfl, rfl, rfl⟩

/-- C7 counterexample: on a storage that already holds a verifier,
`setMasterPassword` does not fail — it is a total function into `Storage`
— and it replaces the existing verifier with a fresh wrap under the new
password. -/
theorem setMasterPassword_overwrites_cex :
    hasMasterPassword initializedStore = true ∧
    (setMasterPassword initializedStore "pw2").verifier
      = some (encryptData VERIFIER_PLAINTEXT "pw2") ∧
    (setMasterPassword initializedStore "pw2").verifier
      ≠ initializedStore.verifier := by
  refine ⟨rfl, rfl, ?_⟩
  decide

/-- C7 (amended): `setMasterPassword` performs no already-initialized
check: on every storage — verifier present or not — it succeeds,
overwrites the verifier slot with the marker wrapped under the new
password, leaves the key collection untouched, and the new password then
verifies; guarding with `hasMasterPassword` is left entirely to
callers. -/
theorem setMasterPassword_unconditional (E : Engine) (st : Storage)
    (pw : String) :
    (setMasterPassword st pw).verifier
      = some (encryptData VERIFIER_PLAINTEXT pw) ∧
    (setMasterPassword st pw).keys = st.keys ∧
    verifyMasterPassword E (setMasterPassword st pw) pw = true := by
  refine ⟨rfl, rfl, ?_⟩
  simp [verifyMasterPassword, setMasterPassword, encryptData, decryptData,
    engineDecrypt]

/-- C8: during a load, a record that is skipped (its entry is
structurally invalid, its data fails to parse as a key, or its decryption
fails other than on the password) is simply removed from the loop — the
load of the whole collection equals the load of the collection without
that record; and both a non-private record whose data does not parse and
a private record whose decryption fails with the corrupt-data error are
such skipped records. -/
theorem loadKeysFromStorage_skips_corrupt_record
    (E : Engine) (mp : String) (st : Storage)
    (pre post : List StoredEntry) (e : StoredEntry)
    (hskip : loadRecord E mp e = .ok none)
    (hkeys : st.keys = some (.arr (pre ++ e :: post))) :
    (loadKeysFromStorage E st mp).fst = loadLoop E mp (pre ++ post) ∧
    (∀ r : StoredKey, r.type ≠ "private" → readKey r.data = none →
      loadRecord E mp (.valid r) = .ok none) ∧
    (∀ r : StoredKey, r.type = "private" →
      decryptData E r.data mp = .error CORRUPT_DATA_MSG →
      loadRecord E mp (.valid r) = .ok none) := by
  refine ⟨?_, ?_, ?_⟩
  · simp only [loadKeysFromStorage, hkeys]
    exact loadLoop_skip E mp e hskip pre post
  · intro r hty hread
    simp only [loadRecord, if_neg hty, hread]
  · intro r hty hdec
    simp only [loadRecord, if_pos hty, hdec]
    rw [if_neg]
    simp only [Bool.not_eq_true]
    decide

/-- C8 witness: the sample store — a corrupted public record followed by a
valid private record wrapped under `"W"` — loaded with `"W"` skips exactly
the corrupted record and returns exactly the hydrated valid one. -/
theorem loadKeysFromStorage_skips_corrupt_record_witness :
    (loadKeysFromStorage sampleEngine sampleStore "W").fst
      = loadLoop sampleEngine "W" [.valid samplePrivateRecord] ∧
    loadLoop sampleEngine "W" [.valid samplePrivateRecord]
      = .ok [hydrateKey sampleKeyInfo (.key sampleKeyInfo)] := by
  constructor
  · exact (loadKeysFromStorage_skips_corrupt_record sampleEngine "W"
      sampleStore [] [.valid samplePrivateRecord]
      (.valid sampleCorruptRecord) rfl rfl).1
  · rfl

/-- C10: `getDecryptedPrivateKeyArmored` returns `null` — not an error —
whenever the identifier names no stored private record; and whenever the
stored record's key object is already decrypted, it returns that object's
armored form for every passphrase argument — absent, empty, or wrong —
without consulting the unlock engine at all (the conclusion holds for
every `decryptKeyOracle`). -/
theorem getDecryptedPrivateKeyArmored_nullMiss_skipsValidation
    (decryptKeyOracle : KeyInfo → String → Except String KeyInfo)
    (keys : List PGPKey) (keyId : String) (passphrase : Option String) :
    (keys.find? (fun k => k.keyId == keyId && k.isPrivate) = none →
      getDecryptedPrivateKeyArmored decryptKeyOracle keys keyId passphrase
        = .ok none) ∧
    (∀ key kobj,
      keys.find? (fun k => k.keyId == keyId && k.isPrivate) = some key →
      readKey key.armored = some kobj →
      kobj.isPrivate = true → kobj.isDecrypted = true →
      getDecryptedPrivateKeyArmored decryptKeyOracle keys keyId passphrase
        = .ok (some (.key kobj))) := by
  constructor
  · intro h
    simp only [getDecryptedPrivateKeyArmored, h]
  · intro key kobj hfind hread hpriv hdec
    simp [getDecryptedPrivateKeyArmored, hfind, hread, hpriv, hdec]

/-- C10 witness: a lookup of an absent identifier returns `null`, and an
already-decrypted stored private key is returned even for a wrong
passphrase, with an unlock oracle that always fails. -/
theorem getDecryptedPrivateKeyArmored_nullMiss_skipsValidation_witness :
    getDecryptedPrivateKeyArmored failingDecryptKeyOracle []
        "missing00" (some "whatever") = .ok none ∧
    getDecryptedPrivateKeyArmored failingDecryptKeyOracle
        [unlockedPrivateKey] "unlocked0001" (some "wrong passphrase")
      = .ok (some (.key unlockedKeyInfo)) := by
  constructor
  · exact (getDecryptedPrivateKeyArmored_nullMiss_skipsValidation
      failingDecryptKeyOracle [] "missing00" (some "whatever")).1 rfl
  · exact (getDecryptedPrivateKeyArmored_nullMiss_skipsValidation
      failingDecryptKeyOracle [unlockedPrivateKey] "unlocked0001"
      (some "wrong passphrase")).2 unlockedPrivateKey unlockedKeyInfo
      rfl rfl rfl rfl

end WebPGP
